import Mathlib

/-!
Verification development for the creature simulation core of BlackTek-Server
(`creature.cpp`).  Each C++ routine relevant to the checked properties is
shallowly embedded as an executable Lean definition; machine integers are
modelled as `Int`/`Nat` (the concrete inputs used stay far from the 32/64-bit
ranges), calls to the random number generator are modelled by quantifying over
the drawn value, and external collaborators (game map, scheduler, creature
registry) are modelled as explicit function parameters.
-/

namespace BlackTek

/-! ## Combat mitigation: `Creature::blockHit` -/

/-- Block classification returned by `Creature::blockHit`
(`BLOCK_NONE / BLOCK_DEFENSE / BLOCK_ARMOR / BLOCK_IMMUNITY`). -/
inductive BlockType where
  | none
  | defense
  | armor
  | immunity
deriving DecidableEq, Repr

/-- Creature state read by `Creature::blockHit`: immunity to the incoming
combat type (`isImmune(combatType)`), the per-second defense charge counter
`blockCount`, the `canUseDefense` flag, and the `getDefense()` / `getArmor()`
values. -/
structure BlockHitState where
  isImmuneToCombat : Bool
  blockCount : Nat
  canUseDefense : Bool
  defense : Int
  armor : Int
deriving DecidableEq, Repr

/-- The mitigation part of `Creature::blockHit`, i.e. everything before the
final `if (damage <= 0)` clause.  `rDef` models the drawn value of
`uniform_random(defense / 2, defense)` and `rArm` the drawn value of
`uniform_random(armor / 2, armor - (armor % 2 + 1))`; theorems quantify over
them.  Returns the damage value, the block classification and the remaining
`blockCount` at that program point. -/
def blockHitMitigation (st : BlockHitState) (damage : Int)
    (checkDefense checkArmor : Bool) (rDef rArm : Int) :
    Int × BlockType × Nat :=
  if st.isImmuneToCombat then
    (0, BlockType.immunity, st.blockCount)
  else if checkDefense || checkArmor then
    let hasDefense := st.blockCount > 0
    let blockCount := if st.blockCount > 0 then st.blockCount - 1 else st.blockCount
    let (damage, blockType, checkArmor) :=
      if checkDefense && hasDefense && st.canUseDefense then
        let damage := damage - rDef
        if damage ≤ 0 then ((0 : Int), BlockType.defense, false)
        else (damage, BlockType.none, checkArmor)
      else (damage, BlockType.none, checkArmor)
    if checkArmor then
      let damage :=
        if st.armor > 3 then damage - rArm
        else if st.armor > 0 then damage - 1
        else damage
      if damage ≤ 0 then ((0 : Int), BlockType.armor, blockCount)
      else (damage, blockType, blockCount)
    else (damage, blockType, blockCount)
  else
    (damage, BlockType.none, st.blockCount)

/-- Model of `Creature::blockHit`: mitigation followed by the final
`if (damage <= 0) { damage = 0; blockType = BLOCK_ARMOR; }` clause.
The attacker-notification side effects do not touch the returned values and
are omitted. -/
def blockHit (st : BlockHitState) (damage : Int)
    (checkDefense checkArmor : Bool) (rDef rArm : Int) :
    Int × BlockType × Nat :=
  let r := blockHitMitigation st damage checkDefense checkArmor rDef rArm
  if r.1 ≤ 0 then (0, BlockType.armor, r.2.2) else r

/-! ## Perception cache: `localMapCache`, `updateMapCache`, `onCreatureMove`,
`getWalkCache` -/

/-- Map position.  `x`, `y`, `z` are modelled as unbounded integers (the C++
fields are `uint16_t`/`uint8_t`; the concrete inputs used in the development
stay well inside those ranges). -/
structure Pos where
  x : Int
  y : Int
  z : Int
deriving DecidableEq, Repr

/-- Model of `Position::getOffsetX(p1, p2) = p1.getX() - p2.getX()`.
Modelled from the spec: `position.h` is not under `src/`; the offset helpers
are the signed coordinate differences, as required by their uses in
`creature.cpp` (`updateTileCache`, `getWalkCache`). -/
def getOffsetX (p1 p2 : Pos) : Int := p1.x - p2.x

/-- Model of `Position::getOffsetY(p1, p2) = p1.getY() - p2.getY()`.
Modelled from the spec: see `getOffsetX`. -/
def getOffsetY (p1 p2 : Pos) : Int := p1.y - p2.y

/-- Model of `Position::getDistanceX(p1, p2) = std::abs(getOffsetX(p1, p2))`.
Modelled from the spec: `position.h` is not under `src/`; the distance
helpers must be the absolute offsets, as required by their uses in
`creature.cpp` (the diagonal-step detection
`getDistanceX >= 1 && getDistanceY >= 1` in `onCreatureMove` and the summon
despawn radius check both need nonnegative distances). -/
def getDistanceX (p1 p2 : Pos) : Int := (getOffsetX p1 p2).natAbs

/-- Model of `Position::getDistanceY(p1, p2) = std::abs(getOffsetY(p1, p2))`.
Modelled from the spec: see `getDistanceX`. -/
def getDistanceY (p1 p2 : Pos) : Int := (getOffsetY p1 p2).natAbs

/-- Model of `Creature::maxWalkCacheWidth = Map::maxViewportX - 1`.
Modelled from the spec: `creature.h` is not under `src/`; the cache is the
fixed-radius grid around the creature with the standard viewport 11, giving
radius 10. -/
abbrev maxWalkCacheWidth : Nat := 10

/-- Model of `Creature::maxWalkCacheHeight = Map::maxViewportY - 1`.
Modelled from the spec: see `maxWalkCacheWidth`. -/
abbrev maxWalkCacheHeight : Nat := 10

/-- Model of `Creature::mapWalkWidth = maxWalkCacheWidth * 2 + 1`. -/
abbrev mapWalkWidth : Nat := maxWalkCacheWidth * 2 + 1

/-- Model of `Creature::mapWalkHeight = maxWalkCacheHeight * 2 + 1`. -/
abbrev mapWalkHeight : Nat := maxWalkCacheHeight * 2 + 1

/-- The `localMapCache` grid: row index `maxWalkCacheHeight + dy`, column
index `maxWalkCacheWidth + dx`. -/
def Cache : Type := Fin mapWalkHeight → Fin mapWalkWidth → Bool

instance : DecidableEq Cache := by
  unfold Cache
  infer_instance

/-- A tile query oracle: `TileQuery x y = true` models
`tile && tile->queryAdd(getCreature(), FLAG_PATHFINDING | FLAG_IGNOREFIELDDAMAGE) == RETURNVALUE_NOERROR`
for the tile at `(x, y)` on the creature's floor.  The world is held fixed
while the creature moves. -/
def TileQuery : Type := Int → Int → Bool

/-- Writing one cell of the grid: `localMapCache[r][c] = v`. -/
def setCell (cache : Cache) (r c : Int) (v : Bool) : Cache :=
  fun i j => if (i.val : Int) = r ∧ (j.val : Int) = c then v else cache i j

/-- Model of `Creature::updateTileCache(tile, dx, dy)`: writes the cell for relative
offset `(dx, dy)` if it lies inside the cached radius. -/
def updateTileCacheXY (q : TileQuery) (myPos : Pos) (cache : Cache)
    (dx dy : Int) : Cache :=
  if dx.natAbs ≤ maxWalkCacheWidth ∧ dy.natAbs ≤ maxWalkCacheHeight then
    setCell cache ((maxWalkCacheHeight : Int) + dy) ((maxWalkCacheWidth : Int) + dx)
      (q (myPos.x + dx) (myPos.y + dy))
  else
    cache

/-- Model of `Creature::updateTileCache(tile, pos)`: converts an absolute position to
a relative offset from the creature's position (same floor only). -/
def updateTileCachePos (q : TileQuery) (myPos : Pos) (cache : Cache)
    (pos : Pos) : Cache :=
  if pos.z = myPos.z then
    updateTileCacheXY q myPos cache (getOffsetX pos myPos) (getOffsetY pos myPos)
  else
    cache

/-- The list `[-(n : Int), ..., n]`, used for the `for` loops over the cache
radius. -/
def intRange (n : Nat) : List Int :=
  (List.range (2 * n + 1)).map (fun i => (i : Int) - (n : Int))

/-- Model of `Creature::updateMapCache()`: full rebuild of the grid around `myPos` by
querying every tile in the cached radius. -/
def updateMapCache (q : TileQuery) (myPos : Pos) (cache : Cache) : Cache :=
  (intRange maxWalkCacheHeight).foldl
    (fun cache y =>
      (intRange maxWalkCacheWidth).foldl
        (fun cache x =>
          updateTileCachePos q myPos cache ⟨myPos.x + x, myPos.y + y, myPos.z⟩)
        cache)
    cache

/-- The row shift for a northward move (`oldPos.y > newPos.y`): rows are
copied south (`localMapCache[y + 1] = localMapCache[y]` for `y` from
`mapWalkHeight - 2` down to `0`), leaving row `0` to be re-queried. -/
def shiftRowsSouth (cache : Cache) : Cache :=
  fun r c =>
    if r.val = 0 then cache r c
    else cache ⟨r.val - 1, Nat.lt_of_le_of_lt (Nat.sub_le _ _) r.isLt⟩ c

/-- The row shift for a southward move (`oldPos.y < newPos.y`): rows are
copied north (`localMapCache[y] = localMapCache[y + 1]` for
`y = 0 .. mapWalkHeight - 2`), leaving row `mapWalkHeight - 1` to be
re-queried. -/
def shiftRowsNorth (cache : Cache) : Cache :=
  fun r c =>
    if h : r.val + 1 < mapWalkHeight then cache ⟨r.val + 1, h⟩ c
    else cache r c

/-- The column shift for an eastward move, applied to rows
`starty .. endy` only (`localMapCache[y][x] = localMapCache[y][x + 1]` for
`x = 0 .. mapWalkWidth - 2`). -/
def shiftColsWest (starty : Int) (endy : Int) (cache : Cache) : Cache :=
  fun r c =>
    if h : starty ≤ (r.val : Int) ∧ (r.val : Int) ≤ endy ∧ c.val + 1 < mapWalkWidth then
      cache r ⟨c.val + 1, h.2.2⟩
    else cache r c

/-- The column shift for a westward move, applied to rows `starty .. endy`
only (`localMapCache[y][x + 1] = localMapCache[y][x]` for `x` from
`mapWalkWidth - 2` down to `0`). -/
def shiftColsEast (starty : Int) (endy : Int) (cache : Cache) : Cache :=
  fun r c =>
    if starty ≤ (r.val : Int) ∧ (r.val : Int) ≤ endy ∧ c.val ≠ 0 then
      cache r ⟨c.val - 1, Nat.lt_of_le_of_lt (Nat.sub_le _ _) c.isLt⟩
    else cache r c

/-- Re-query of one border row at relative `dy` (the loops
`for (x = -maxWalkCacheWidth; x <= maxWalkCacheWidth; ++x)` in
`onCreatureMove`). -/
def refillRow (q : TileQuery) (myPos : Pos) (dy : Int) (cache : Cache) : Cache :=
  (intRange maxWalkCacheWidth).foldl
    (fun cache x => updateTileCacheXY q myPos cache x dy) cache

/-- Re-query of one border column at relative `dx` (the loops
`for (y = -maxWalkCacheHeight; y <= maxWalkCacheHeight; ++y)` in
`onCreatureMove`). -/
def refillCol (q : TileQuery) (myPos : Pos) (dx : Int) (cache : Cache) : Cache :=
  (intRange maxWalkCacheHeight).foldl
    (fun cache y => updateTileCacheXY q myPos cache dx y) cache

/-- The cache maintenance performed by `Creature::onCreatureMove` for the
creature's own non-teleport, same-floor move from `oldPos` to `newPos`
(`getPosition()` already returns `newPos` when the handler runs): the
north/south row shift with border re-query, then the east/west column shift
with border re-query — where `starty`/`endy` are adjusted by
`dy = Position::getDistanceY(oldPos, newPos)` — and finally
`updateTileCache(oldTile, oldPos)`. -/
def onCreatureMoveCache (q : TileQuery) (oldPos newPos : Pos) (cache : Cache) :
    Cache :=
  let cache :=
    if oldPos.y > newPos.y then
      refillRow q newPos (-(maxWalkCacheHeight : Int)) (shiftRowsSouth cache)
    else if oldPos.y < newPos.y then
      refillRow q newPos (maxWalkCacheHeight : Int) (shiftRowsNorth cache)
    else cache
  let cache :=
    if oldPos.x < newPos.x then
      let dy : Int := getDistanceY oldPos newPos
      let starty : Int := if dy < 0 then 0 else if dy > 0 then dy else 0
      let endy : Int :=
        if dy < 0 then (mapWalkHeight : Int) - 1 + dy else (mapWalkHeight : Int) - 1
      refillCol q newPos (maxWalkCacheWidth : Int) (shiftColsWest starty endy cache)
    else if oldPos.x > newPos.x then
      let dy : Int := getDistanceY oldPos newPos
      let starty : Int := if dy < 0 then 0 else if dy > 0 then dy else 0
      let endy : Int :=
        if dy < 0 then (mapWalkHeight : Int) - 1 + dy else (mapWalkHeight : Int) - 1
      refillCol q newPos (-(maxWalkCacheWidth : Int)) (shiftColsEast starty endy cache)
    else cache
  updateTileCachePos q newPos cache oldPos

/-- The all-false grid, used as the initial value before a first rebuild. -/
def emptyCache : Cache := fun _ _ => false

/-- Model of `Creature::getWalkCache(pos)`: `2` when caching is disabled, `0` when the
queried position is on another floor, `1` for the creature's own position,
the cached boolean (as `1`/`0`) inside the radius, and `2` outside it. -/
def getWalkCache (useCacheMap : Bool) (cache : Cache) (myPos pos : Pos) : Nat :=
  if !useCacheMap then 2
  else if myPos.z ≠ pos.z then 0
  else if pos = myPos then 1
  else
    let dx := getOffsetX pos myPos
    if hx : dx.natAbs ≤ maxWalkCacheWidth then
      let dy := getOffsetY pos myPos
      if hy : dy.natAbs ≤ maxWalkCacheHeight then
        if cache
            ⟨((maxWalkCacheHeight : Int) + dy).toNat, by
              simp only [maxWalkCacheHeight, mapWalkHeight] at *; omega⟩
            ⟨((maxWalkCacheWidth : Int) + dx).toNat, by
              simp only [maxWalkCacheWidth, mapWalkWidth] at *; omega⟩ then 1
        else 0
      else 2
    else 2

/-! ## Movement engine: `Creature::onWalk` -/

/-- Walk directions (the values of the `Direction` enum that can sit in
`listWalkDir`). -/
inductive Direction where
  | north
  | east
  | south
  | west
  | southwest
  | southeast
  | northwest
  | northeast
deriving DecidableEq, Repr

/-- The creature state read and written by `Creature::onWalk`:
the queued direction list (stepped from its back by `getNextStep`), the
`cancelNextWalk` flag, the `forceUpdateFollowPath` flag and the scheduler
handle `eventWalk` (`0` = no timer armed). -/
structure WalkState where
  listWalkDir : List Direction
  cancelNextWalk : Bool
  forceUpdateFollowPath : Bool
  eventWalk : Nat
deriving DecidableEq, Repr

/-- Externally observable notifications fired during one `onWalk` pass:
`sendCancelMessage`/`sendCancelWalk` to a player on move failure,
`onWalkAborted`, `onWalkComplete`, and the immediate
`g_game.checkCreatureWalk` dispatch for a 1-tick re-arm. -/
structure WalkEvents where
  sentCancel : Bool
  abortFired : Bool
  completeFired : Bool
  immediateCheck : Bool
deriving DecidableEq, Repr

/-- The no-notification value. -/
def WalkEvents.none : WalkEvents :=
  ⟨false, false, false, false⟩

/-- The step section of `Creature::onWalk()` (the `getWalkDelay() <= 0`
body): pops the back of `listWalkDir` via `getNextStep` and submits the move;
on failure it sends the cancel messages to a player and raises
`forceUpdateFollowPath`; with an empty queue it stops the walk timer and
reports walk completion.  `walkDelay` is `getWalkDelay()`, `moveFails`
whether `g_game.internalMoveCreature` returns an error for the popped
direction (the drunk handler in `onWalk(Direction&)` only rewrites the
attempted direction, which this outcome parameter already ranges over), and
`isPlayer` whether `getPlayer()` is non-null. -/
def onWalkStepPhase (s : WalkState) (walkDelay : Int) (moveFails : Bool)
    (isPlayer : Bool) : WalkState × WalkEvents :=
  if walkDelay ≤ 0 then
    match s.listWalkDir with
    | [] =>
      ({ s with eventWalk := 0 }, { WalkEvents.none with completeFired := true })
    | _ :: _ =>
      let s := { s with listWalkDir := s.listWalkDir.dropLast }
      if moveFails then
        ({ s with forceUpdateFollowPath := true },
          { WalkEvents.none with sentCancel := isPlayer })
      else (s, WalkEvents.none)
  else (s, WalkEvents.none)

/-- The `cancelNextWalk` section of `Creature::onWalk()`: a pending cancel
flag clears the queue, fires `onWalkAborted` and resets the flag. -/
def onWalkCancelPhase (r : WalkState × WalkEvents) : WalkState × WalkEvents :=
  if r.1.cancelNextWalk then
    ({ r.1 with listWalkDir := [], cancelNextWalk := false },
      { r.2 with abortFired := true })
  else r

/-- The re-arming section of `Creature::onWalk()`: a non-zero `eventWalk`
handle is consumed and `addEventWalk()` re-arms the walk timer, clearing the
cancel flag and scheduling `newEventId` when the speed and tick guards pass
(`stepSpeed` is `getStepSpeed()` and `eventStepTicks` is
`getEventStepTicks(false)`). -/
def onWalkRearmPhase (r : WalkState × WalkEvents) (stepSpeed : Int)
    (eventStepTicks : Int) (newEventId : Nat) : WalkState × WalkEvents :=
  if r.1.eventWalk ≠ 0 then
    let s := { r.1 with eventWalk := 0, cancelNextWalk := false }
    if stepSpeed ≤ 0 then (s, r.2)
    else if eventStepTicks ≤ 0 then (s, r.2)
    else
      ({ s with eventWalk := newEventId },
        { r.2 with immediateCheck := eventStepTicks = 1 })
  else r

/-- One pass of `Creature::onWalk()`: the step section, the cancel section
and the re-arming section, in program order. -/
def onWalkPass (s : WalkState) (walkDelay : Int) (moveFails : Bool)
    (isPlayer : Bool) (stepSpeed : Int) (eventStepTicks : Int)
    (newEventId : Nat) : WalkState × WalkEvents :=
  onWalkRearmPhase (onWalkCancelPhase (onWalkStepPhase s walkDelay moveFails isPlayer))
    stepSpeed eventStepTicks newEventId

/-! ## Damage ledger: `damageMap`, `getKillers`, `onDeath`,
`getDamageRatio` -/

/-- Model of `CountBlock_t`: cumulative damage total and last-hit timestamp of one
ledger entry. -/
structure CountBlock where
  total : Nat
  ticks : Int
deriving DecidableEq, Repr

/-- The `damageMap` ledger: attacker id paired with its count block (the
`std::map` iteration order is the list order; keys are unique in every
instance considered). -/
abbrev DamageMap : Type := List (Nat × CountBlock)

/-- Model of `Creature::getKillers()`: every ledger attacker that still resolves to a
creature (`resolves`), is not the dying creature itself, and whose last hit
lies within the combat-lock window `inFightTicks`
(`g_config.getNumber(ConfigManager::PZ_LOCKED)`). -/
def getKillers (dm : DamageMap) (resolves : Nat → Bool) (selfId : Nat)
    (timeNow inFightTicks : Int) : List Nat :=
  (dm.filter (fun e =>
    resolves e.1 && e.1 != selfId && decide (timeNow - e.2.ticks ≤ inFightTicks))).map
    (fun e => e.1)

/-- Model of `Creature::getDamageRatio(attacker)`: the quotient of the attacker's
cumulative total by the cumulative total over the whole ledger, with no
timestamp filtering.  The C++ computes the quotient in `double`; the rational
value models it exactly as a quotient of the two 32-bit sums. -/
def damageRatioOf (dm : DamageMap) (attackerId : Nat) : Rat :=
  let totalDamage : Nat := (dm.foldl (fun acc e => acc + e.2.total) 0) % 2 ^ 32
  let attackerDamage : Nat :=
    (dm.foldl (fun acc e => acc + if e.1 = attackerId then e.2.total else 0) 0) % 2 ^ 32
  if totalDamage = 0 then 0
  else (attackerDamage : Rat) / (totalDamage : Rat)

/-- Model of `Creature::getGainedExperience(attacker)` =
`std::floor(getDamageRatio(attacker) * getLostExperience())`. -/
def getGainedExperience (dm : DamageMap) (attackerId : Nat) (lostExp : Nat) : Nat :=
  (Rat.floor (damageRatioOf dm attackerId * (lostExp : Rat))).toNat

/-- Adding `amount` to the accumulating `experienceMap` entry of `id`
(`std::map<CreaturePtr, uint64_t>`; association-list model keyed by creature
id). -/
def addExperienceShare (em : List (Nat × Nat)) (id : Nat) (amount : Nat) :
    List (Nat × Nat) :=
  match em with
  | [] => [(id, amount)]
  | e :: rest =>
    if e.1 = id then (e.1, e.2 + amount) :: rest
    else e :: addExperienceShare rest id amount

/-- The body of the `damageMap` loop in `Creature::onDeath()` for one ledger
entry `e`: when the attacker resolves to a creature, the most-damage
accumulator is updated for entries inside the combat-lock window, and — for
attackers other than the dying creature, with no window check — the
attacker's `getGainedExperience` over `ratioBase` is accumulated into the
experience map under `redirect` (the replacement of a player attacker by its
party leader when shared experience is active). -/
def onDeathStep (ratioBase : DamageMap) (resolves : Nat → Bool) (selfId : Nat)
    (redirect : Nat → Nat) (lostExp : Nat) (timeNow inFightTicks : Int)
    (acc : (Option Nat × Nat) × List (Nat × Nat)) (e : Nat × CountBlock) :
    (Option Nat × Nat) × List (Nat × Nat) :=
  if resolves e.1 then
    let md :=
      if e.2.total > acc.1.2 ∧ timeNow - e.2.ticks ≤ inFightTicks then
        (some e.1, e.2.total)
      else acc.1
    let em :=
      if e.1 ≠ selfId then
        addExperienceShare acc.2 (redirect e.1) (getGainedExperience ratioBase e.1 lostExp)
      else acc.2
    (md, em)
  else acc

/-- The single scan over `damageMap` in `Creature::onDeath()`: folds
`onDeathStep` (with the same ledger as ratio base) over the ledger, starting
from no most-damage attacker, `mostDamage = 0` and an empty experience map.
Returns `((mostDamageCreature, mostDamage), experienceMap)`. -/
def onDeathScan (dm : DamageMap) (resolves : Nat → Bool) (selfId : Nat)
    (redirect : Nat → Nat) (lostExp : Nat) (timeNow inFightTicks : Int) :
    (Option Nat × Nat) × List (Nat × Nat) :=
  dm.foldl (onDeathStep dm resolves selfId redirect lostExp timeNow inFightTicks)
    ((none, 0), [])

/-- Reassigning every ledger timestamp by `f` while keeping ids and totals;
used to state that a computation ignores the timestamps. -/
def reassignTicks (dm : DamageMap) (f : Nat → CountBlock → Int) : DamageMap :=
  dm.map (fun e => (e.1, ⟨e.2.total, f e.1 e.2⟩))

/-! ## Ownership graph: `Creature::setMaster` -/

/-- The master/summon arena: per-creature master reference and summon list,
both addressed by stable creature id. -/
structure SummonWorld where
  masterOf : Nat → Option Nat
  summonsOf : Nat → List Nat

/-- Model of `Creature::setMaster(newMaster)`:
fails only when there is neither a new nor a current master; otherwise it
pushes the creature onto the new master's summon list (if any), reassigns the
master reference, and erases the first identity-matching entry from the old
master's summon list (if any). -/
def setMaster (w : SummonWorld) (selfId : Nat) (newMaster : Option Nat) :
    Bool × SummonWorld :=
  if newMaster = none ∧ w.masterOf selfId = none then
    (false, w)
  else
    let w :=
      match newMaster with
      | some m =>
        { w with summonsOf := Function.update w.summonsOf m (w.summonsOf m ++ [selfId]) }
      | none => w
    let oldMaster := w.masterOf selfId
    let w := { w with masterOf := Function.update w.masterOf selfId newMaster }
    match oldMaster with
    | some om =>
      (true,
        { w with summonsOf := Function.update w.summonsOf om ((w.summonsOf om).erase selfId) })
    | none => (true, w)

/-! ## Experience propagation: `Creature::onGainExperience` -/

/-- The amounts received along a master chain with `n` masters above the
creature, mirroring `Creature::onGainExperience(gainExp, target)`: the
creature is awarded `e`; when `e` is nonzero and a master exists, the master
receives `e / 2` by the recursive call (`gainExp /= 2` in `uint64_t`
arithmetic is truncating division). -/
def expChainAwards (e : Nat) : Nat → List Nat
  | 0 => [e]
  | n + 1 => if e = 0 then [e] else e :: expChainAwards (e / 2) n

/-! ## Health bounds: `Creature::changeHealth` -/

/-- Model of `Creature::changeHealth(healthChange)`: the new health value, together
with the flag telling whether the deferred death task
(`g_game.executeDeath`) was pushed to the dispatcher (`health <= 0` after the
update).  `healthMax` is only read. -/
def changeHealth (health healthMax healthChange : Int) : Int × Bool :=
  let health :=
    if healthChange > 0 then health + min healthChange (healthMax - health)
    else max 0 (health + healthChange)
  (health, health ≤ 0)

/-! ## Concrete scenario for the shift/rebuild comparison -/

/-- A concrete world whose walkability depends on the x-parity of the tile,
making horizontally shifted grids visibly different. -/
def parityQuery : TileQuery := fun x _ => decide (x % 2 = 0)

/-- Start of the south-east move scenario. -/
def sePosOld : Pos := ⟨100, 100, 7⟩

/-- End of the south-east move scenario: one step south-east. -/
def sePosNew : Pos := ⟨101, 101, 7⟩

/-- The grid after a rebuild at the start position followed by the
incremental maintenance for the south-east step. -/
def seIncremental : Cache :=
  onCreatureMoveCache parityQuery sePosOld sePosNew
    (updateMapCache parityQuery sePosOld emptyCache)

/-- The grid after a full rebuild at the end position. -/
def seRebuilt : Cache :=
  updateMapCache parityQuery sePosNew emptyCache

/-! ## Helper lemmas -/

/-- Every chain of awards starts with the amount awarded to the creature
itself. -/
theorem expChainAwards_head (e : Nat) (n : Nat) :
    (expChainAwards e n).head? = some e := by
  cases n with
  | zero => rfl
  | succ n =>
    unfold expChainAwards
    split <;> rfl

/-- The awards of a zero amount sum to zero. -/
theorem expChainAwards_zero_sum (n : Nat) : (expChainAwards 0 n).sum = 0 := by
  cases n with
  | zero => rfl
  | succ n => rfl

/-- The summed awards stay strictly below twice the base amount. -/
theorem expChainAwards_sum_lt (n : Nat) (e : Nat) (he : 0 < e) :
    (expChainAwards e n).sum < 2 * e := by
  induction n generalizing e with
  | zero => simpa [expChainAwards] using by omega
  | succ n ih =>
    unfold expChainAwards
    rw [if_neg he.ne']
    simp only [List.sum_cons]
    rcases Nat.eq_zero_or_pos (e / 2) with h2 | h2
    · rw [h2, expChainAwards_zero_sum]
      omega
    · have := ih (e / 2) h2
      have : e / 2 * 2 ≤ e := Nat.div_mul_le_self e 2
      omega

/-- Each successive award along the chain is the floored half of the
previous one, and strictly smaller. -/
theorem expChainAwards_step (n : Nat) (e : Nat) (i : Nat) (a b : Nat)
    (ha : (expChainAwards e n).get? i = some a)
    (hb : (expChainAwards e n).get? (i + 1) = some b) :
    b = a / 2 ∧ b < a := by
  induction n generalizing e i with
  | zero =>
    simp [expChainAwards, List.get?] at hb
  | succ n ih =>
    by_cases he : e = 0
    · subst he
      simp [expChainAwards, List.get?] at hb
    · rw [expChainAwards, if_neg he] at ha hb
      cases i with
      | zero =>
        simp only [List.get?] at ha hb
        obtain rfl : e = a := by simpa using ha
        have hb2 : (expChainAwards (e / 2) n).head? = some b := by
          cases hrest : expChainAwards (e / 2) n with
          | nil => simp [hrest, List.get?] at hb
          | cons x xs => simp [hrest, List.get?] at hb ⊢; omega
        rw [expChainAwards_head] at hb2
        obtain rfl : e / 2 = b := by simpa using hb2
        exact ⟨rfl, Nat.div_lt_self (Nat.pos_of_ne_zero he) one_lt_two⟩
      | succ i =>
        exact ih (e / 2) i (by simpa using ha) (by simpa using hb)

/-! ## Claim theorems -/

/-- C1: whenever the damage value at the end of `blockHit`'s mitigation steps
is at most `0`, the final clause of `Creature::blockHit` forces the damage
out-parameter to `0` and the returned classification to `BLOCK_ARMOR`,
whatever caused the damage to reach zero. -/
theorem blockHit_zero_damage_forced_armor
    (st : BlockHitState) (damage : Int) (checkDefense checkArmor : Bool)
    (rDef rArm : Int)
    (h : (blockHitMitigation st damage checkDefense checkArmor rDef rArm).1 ≤ 0) :
    (blockHit st damage checkDefense checkArmor rDef rArm).1 = 0 ∧
    (blockHit st damage checkDefense checkArmor rDef rArm).2.1 = BlockType.armor := by
  unfold blockHit
  rw [if_pos h]
  exact ⟨rfl, rfl⟩

/-- C1 witness: a defense block that zeroes the damage is reported as
armor-blocked with damage `0`. -/
theorem blockHit_zero_damage_forced_armor_witness :
    (blockHitMitigation ⟨false, 1, true, 20, 0⟩ 5 true false 10 0).1 ≤ 0 ∧
    ((blockHit ⟨false, 1, true, 20, 0⟩ 5 true false 10 0).1 = 0 ∧
      (blockHit ⟨false, 1, true, 20, 0⟩ 5 true false 10 0).2.1 = BlockType.armor) :=
  ⟨by decide, blockHit_zero_damage_forced_armor ⟨false, 1, true, 20, 0⟩ 5 true false 10 0 (by decide)⟩

/-- C3 counterexample: with `checkDefense = false` and `checkArmor = false`,
an immune creature hit for `50` has its damage reduced to `0` and the call
returns `BLOCK_ARMOR`, which is neither `BLOCK_NONE` nor `BLOCK_IMMUNITY`
(the final `damage <= 0` clause overwrites the immunity classification). -/
theorem blockHit_noChecks_counterexample :
    (blockHit ⟨true, 0, false, 0, 0⟩ 50 false false 0 0).1 < 50 ∧
    (blockHit ⟨true, 0, false, 0, 0⟩ 50 false false 0 0).2.1 ≠ BlockType.none ∧
    (blockHit ⟨true, 0, false, 0, 0⟩ 50 false false 0 0).2.1 ≠ BlockType.immunity := by
  decide

/-- C3 amended: with `checkDefense = false` and `checkArmor = false`,
`blockHit` leaves a positive damage value unchanged and returns `BLOCK_NONE`
provided the creature is not immune to the combat type; when the creature is
immune, or the incoming damage is already nonpositive, the damage is set to
`0` and `BLOCK_ARMOR` is returned. -/
theorem blockHit_noChecks_amended
    (st : BlockHitState) (damage : Int) (rDef rArm : Int) :
    (st.isImmuneToCombat = false → 0 < damage →
      blockHit st damage false false rDef rArm = (damage, BlockType.none, st.blockCount)) ∧
    (st.isImmuneToCombat = true ∨ damage ≤ 0 →
      (blockHit st damage false false rDef rArm).1 = 0 ∧
      (blockHit st damage false false rDef rArm).2.1 = BlockType.armor) := by
  constructor
  · intro hi hd
    simp only [blockHit, blockHitMitigation, hi, Bool.false_eq_true, if_false,
      Bool.or_self]
    rw [if_neg (by omega)]
  · intro hcase
    rcases hcase with hi | hd
    · simp [blockHit, blockHitMitigation, hi]
    · rcases h : st.isImmuneToCombat with _ | _
      · simp only [blockHit, blockHitMitigation, h, Bool.false_eq_true, if_false,
          Bool.or_self]
        rw [if_pos hd]
        exact ⟨rfl, rfl⟩
      · simp [blockHit, blockHitMitigation, h]

/-- C3 amended witness: a non-immune creature keeps its damage and gets
`BLOCK_NONE`; an immune creature gets damage `0` and `BLOCK_ARMOR`. -/
theorem blockHit_noChecks_amended_witness :
    blockHit ⟨false, 3, true, 7, 9⟩ 12 false false 1 2 = (12, BlockType.none, 3) ∧
    ((blockHit ⟨true, 3, true, 7, 9⟩ 12 false false 1 2).1 = 0 ∧
      (blockHit ⟨true, 3, true, 7, 9⟩ 12 false false 1 2).2.1 = BlockType.armor) :=
  ⟨(blockHit_noChecks_amended ⟨false, 3, true, 7, 9⟩ 12 1 2).1 rfl (by decide),
    (blockHit_noChecks_amended ⟨true, 3, true, 7, 9⟩ 12 1 2).2 (Or.inl rfl)⟩

/-- C9: along any master chain, every creature awarded a positive amount
passes exactly the floored half to its master, each award strictly decreases
(so the recursion runs out), and the total experience received across the
chain stays strictly below twice the base amount. -/
theorem onGainExperience_chain (e n : Nat) (he : 0 < e) :
    (expChainAwards e n).head? = some e ∧
    (∀ i a b, (expChainAwards e n).get? i = some a →
      (expChainAwards e n).get? (i + 1) = some b → b = a / 2 ∧ b < a) ∧
    (expChainAwards e n).sum < 2 * e :=
  ⟨expChainAwards_head e n,
    fun i a b ha hb => expChainAwards_step n e i a b ha hb,
    expChainAwards_sum_lt n e he⟩

/-- C9 witness: base amount `100` over three masters awards
`[100, 50, 25, 12]`, each hop the floored half, with sum `187 < 200`. -/
theorem onGainExperience_chain_witness :
    (expChainAwards 100 3).head? = some 100 ∧ (50 = 100 / 2 ∧ 50 < 100) ∧
    (expChainAwards 100 3).sum < 2 * 100 :=
  ⟨(onGainExperience_chain 100 3 (by decide)).1,
    (onGainExperience_chain 100 3 (by decide)).2.1 0 100 50 (by decide) (by decide),
    (onGainExperience_chain 100 3 (by decide)).2.2⟩

/-- C10: starting from a health value within `[0, healthMax]`,
`changeHealth` clamps a negative change at `0`, clamps a positive change at
`healthMax`, keeps the result within `[0, healthMax]`, and only reads
`healthMax`. -/
theorem changeHealth_bounds (health healthMax d : Int)
    (h0 : 0 ≤ health) (hmax : health ≤ healthMax) :
    (d < 0 → (changeHealth health healthMax d).1 = max 0 (health + d)) ∧
    (0 < d → (changeHealth health healthMax d).1 = min healthMax (health + d)) ∧
    0 ≤ (changeHealth health healthMax d).1 ∧
    (changeHealth health healthMax d).1 ≤ healthMax := by
  have h1 : (changeHealth health healthMax d).1 =
      if d > 0 then health + min d (healthMax - health) else max 0 (health + d) := rfl
  rw [h1]
  by_cases hd : d > 0
  · rw [if_pos hd]
    exact ⟨fun h2 => absurd hd (by omega), fun _ => by omega, by omega, by omega⟩
  · rw [if_neg hd]
    exact ⟨fun _ => by omega, fun h2 => absurd h2 hd, by omega, by omega⟩

/-- C10 witness: health `10` of `30` clamps a `-15` change at `0` and a `+25`
change at `30`. -/
theorem changeHealth_bounds_witness :
    (changeHealth 10 30 (-15)).1 = max 0 (10 + (-15)) ∧
    (changeHealth 10 30 25).1 = min 30 (10 + 25) :=
  ⟨(changeHealth_bounds 10 30 (-15) (by decide) (by decide)).1 (by decide),
    (changeHealth_bounds 10 30 25 (by decide) (by decide)).2.1 (by decide)⟩

/-- C6 counterexample: with two queued directions, no pending cancel flag
and a failing move, `onWalk` keeps the remaining queued direction and fires
no walk-abort notification, contradicting the claim that the queue is
cleared and the abort fires. -/
theorem onWalk_moveFail_counterexample :
    (onWalkPass ⟨[Direction.north, Direction.east], false, false, 5⟩ 0 true true
      220 300 7).1.listWalkDir = [Direction.north] ∧
    (onWalkPass ⟨[Direction.north, Direction.east], false, false, 5⟩ 0 true true
      220 300 7).2.abortFired = false ∧
    [Direction.north] ≠ ([] : List Direction) := by
  decide

/-- C6 amended: when the walk delay has elapsed, a queued direction exists,
`cancelNextWalk` is not pending and the submitted move fails, `onWalk` pops
the attempted direction but keeps the rest of the queue, fires no walk-abort
notification, sends the cancel messages exactly to players, and raises the
`forceUpdateFollowPath` flag. -/
theorem onWalk_moveFail_amended (s : WalkState) (isPlayer : Bool)
    (stepSpeed eventStepTicks : Int) (newEventId : Nat) (walkDelay : Int)
    (hdelay : walkDelay ≤ 0) (hne : s.listWalkDir ≠ [])
    (hcancel : s.cancelNextWalk = false) :
    (onWalkPass s walkDelay true isPlayer stepSpeed eventStepTicks
      newEventId).1.listWalkDir = s.listWalkDir.dropLast ∧
    (onWalkPass s walkDelay true isPlayer stepSpeed eventStepTicks
      newEventId).2.abortFired = false ∧
    (onWalkPass s walkDelay true isPlayer stepSpeed eventStepTicks
      newEventId).2.sentCancel = isPlayer ∧
    (onWalkPass s walkDelay true isPlayer stepSpeed eventStepTicks
      newEventId).1.forceUpdateFollowPath = true := by
  have hstep : onWalkStepPhase s walkDelay true isPlayer =
      ({ s with listWalkDir := s.listWalkDir.dropLast, forceUpdateFollowPath := true },
        { WalkEvents.none with sentCancel := isPlayer }) := by
    unfold onWalkStepPhase
    rw [if_pos hdelay]
    cases h : s.listWalkDir with
    | nil => exact absurd h hne
    | cons d ds => rfl
  have hcan : onWalkCancelPhase (onWalkStepPhase s walkDelay true isPlayer) =
      onWalkStepPhase s walkDelay true isPlayer := by
    rw [hstep]
    unfold onWalkCancelPhase
    simp [hcancel]
  unfold onWalkPass
  rw [hcan, hstep]
  unfold onWalkRearmPhase
  split_ifs <;> simp [WalkEvents.none]

/-- C6 amended witness: a concrete failing move pops one direction, keeps
the other, fires no abort, and sets the re-plan flag. -/
theorem onWalk_moveFail_amended_witness :
    (onWalkPass ⟨[Direction.north, Direction.east], false, false, 5⟩ 0 true true
      220 300 7).1.listWalkDir = [Direction.north, Direction.east].dropLast ∧
    (onWalkPass ⟨[Direction.north, Direction.east], false, false, 5⟩ 0 true true
      220 300 7).2.abortFired = false ∧
    (onWalkPass ⟨[Direction.north, Direction.east], false, false, 5⟩ 0 true true
      220 300 7).2.sentCancel = true ∧
    (onWalkPass ⟨[Direction.north, Direction.east], false, false, 5⟩ 0 true true
      220 300 7).1.forceUpdateFollowPath = true :=
  onWalk_moveFail_amended ⟨[Direction.north, Direction.east], false, false, 5⟩
    true 220 300 7 0 (by decide) (by decide) rfl

/-- C8 counterexample: a same-coordinate position one floor above returns
`0` (blocked), not the claimed `2` (unknown); and with caching disabled even
the creature's own position returns `2`, not the claimed self marker `1`. -/
theorem getWalkCache_counterexample :
    getWalkCache true emptyCache ⟨100, 100, 7⟩ ⟨100, 100, 6⟩ = 0 ∧ (0 : Nat) ≠ 2 ∧
    getWalkCache false emptyCache ⟨100, 100, 7⟩ ⟨100, 100, 7⟩ = 2 ∧ (2 : Nat) ≠ 1 := by
  decide

/-- C8 amended: `getWalkCache` returns `2` whenever caching is disabled for
the entity kind (even for the creature's own position); with caching enabled
it returns `0` for any position on another floor, the self marker `1` for
the creature's own position, the cached walkability boolean (`1`/`0`) for
any other same-floor position within the cached radius, and `2` outside the
radius. -/
theorem getWalkCache_amended (cache : Cache) (myPos pos : Pos) :
    (getWalkCache false cache myPos pos = 2) ∧
    (pos.z ≠ myPos.z → getWalkCache true cache myPos pos = 0) ∧
    (pos = myPos → getWalkCache true cache myPos pos = 1) ∧
    (∀ dx dy : Int, ¬(dx = 0 ∧ dy = 0) →
      ∀ hx : dx.natAbs ≤ maxWalkCacheWidth,
      ∀ hy : dy.natAbs ≤ maxWalkCacheHeight,
      getWalkCache true cache myPos ⟨myPos.x + dx, myPos.y + dy, myPos.z⟩ =
        if cache
            ⟨((maxWalkCacheHeight : Int) + dy).toNat, by
              simp only [maxWalkCacheHeight, mapWalkHeight] at *; omega⟩
            ⟨((maxWalkCacheWidth : Int) + dx).toNat, by
              simp only [maxWalkCacheWidth, mapWalkWidth] at *; omega⟩ then 1 else 0) ∧
    (pos.z = myPos.z →
      (getOffsetX pos myPos).natAbs > maxWalkCacheWidth ∨
        (getOffsetY pos myPos).natAbs > maxWalkCacheHeight →
      getWalkCache true cache myPos pos = 2) := by
  refine ⟨rfl, ?_, ?_, ?_, ?_⟩
  · intro hz
    unfold getWalkCache
    rw [if_neg (by simp), if_pos (by omega)]
  · intro he
    subst he
    unfold getWalkCache
    rw [if_neg (by simp), if_neg (by simp), if_pos rfl]
  · intro dx dy hne hx hy
    unfold getWalkCache
    have hzeq : (Pos.mk (myPos.x + dx) (myPos.y + dy) myPos.z).z = myPos.z := rfl
    rw [if_neg (by simp), if_neg (by simp [hzeq]),
      if_neg (by
        intro he
        apply hne
        have hx0 := congrArg Pos.x he
        have hy0 := congrArg Pos.y he
        simp at hx0 hy0
        exact ⟨hx0, hy0⟩)]
    have hox : getOffsetX ⟨myPos.x + dx, myPos.y + dy, myPos.z⟩ myPos = dx := by
      simp [getOffsetX]
    have hoy : getOffsetY ⟨myPos.x + dx, myPos.y + dy, myPos.z⟩ myPos = dy := by
      simp [getOffsetY]
    simp only [hox, hoy]
    rw [dif_pos hx, dif_pos hy]
  · intro hz hout
    unfold getWalkCache
    rw [if_neg (by simp), if_neg (by omega),
      if_neg (by
        intro he
        rw [he] at hout
        simp [getOffsetX, getOffsetY] at hout)]
    rcases hout with hx | hy
    · rw [dif_neg (by omega)]
    · by_cases hx : (getOffsetX pos myPos).natAbs ≤ maxWalkCacheWidth
      · rw [dif_pos hx, dif_neg (by omega)]
      · rw [dif_neg hx]

/-- C8 amended witness: a blocked other-floor query, a disabled-cache query,
a self query, an in-radius query reading the grid, and an out-of-radius
query. -/
theorem getWalkCache_amended_witness :
    getWalkCache false emptyCache ⟨100, 100, 7⟩ ⟨100, 100, 7⟩ = 2 ∧
    getWalkCache true emptyCache ⟨100, 100, 7⟩ ⟨100, 100, 6⟩ = 0 ∧
    getWalkCache true emptyCache ⟨100, 100, 7⟩ ⟨100, 100, 7⟩ = 1 ∧
    getWalkCache true emptyCache ⟨100, 100, 7⟩ ⟨103, 98, 7⟩ =
      (if emptyCache ⟨8, by decide⟩ ⟨13, by decide⟩ then 1 else 0) ∧
    getWalkCache true emptyCache ⟨100, 100, 7⟩ ⟨120, 100, 7⟩ = 2 := by
  refine ⟨(getWalkCache_amended emptyCache ⟨100, 100, 7⟩ ⟨100, 100, 7⟩).1,
    (getWalkCache_amended emptyCache ⟨100, 100, 7⟩ ⟨100, 100, 6⟩).2.1 (by decide),
    (getWalkCache_amended emptyCache ⟨100, 100, 7⟩ ⟨100, 100, 7⟩).2.2.1 rfl,
    ?_,
    (getWalkCache_amended emptyCache ⟨100, 100, 7⟩ ⟨120, 100, 7⟩).2.2.2.2 rfl
      (Or.inl (by decide))⟩
  exact (getWalkCache_amended emptyCache ⟨100, 100, 7⟩ ⟨100, 100, 7⟩).2.2.2.1
    3 (-2) (by decide) (by decide) (by decide)

/-- C7: `setMaster` fails (returning `false` and changing nothing) exactly
when the creature has no master and none is given; in every other case it
returns `true`, records the new master reference, appends the creature to
the new master's summon list, and removes the creature — looked up by its
identity — from the old master's summon list, including the degenerate case
where old and new master coincide. -/
theorem setMaster_contract (w : SummonWorld) (selfId : Nat) (nm : Option Nat) :
    ((setMaster w selfId nm).1 = false ↔ nm = none ∧ w.masterOf selfId = none) ∧
    (nm = none → w.masterOf selfId = none → (setMaster w selfId nm).2 = w) ∧
    ((setMaster w selfId nm).1 = true →
      (setMaster w selfId nm).2.masterOf selfId = nm) ∧
    (∀ m, nm = some m → w.masterOf selfId ≠ some m →
      selfId ∈ (setMaster w selfId nm).2.summonsOf m) ∧
    (∀ om, w.masterOf selfId = some om → nm ≠ some om →
      (setMaster w selfId nm).2.summonsOf om = (w.summonsOf om).erase selfId) ∧
    (∀ m, nm = some m → w.masterOf selfId = some m →
      (setMaster w selfId nm).2.summonsOf m =
        (w.summonsOf m ++ [selfId]).erase selfId) := by
  by_cases hfail : nm = none ∧ w.masterOf selfId = none
  · obtain ⟨h1, h2⟩ := hfail
    subst h1
    have hs : setMaster w selfId none = (false, w) := by
      unfold setMaster
      rw [if_pos ⟨rfl, h2⟩]
    refine ⟨by simp [hs, h2], fun _ _ => by simp [hs], by simp [hs],
      ?_, ?_, ?_⟩
    · intro m hm
      simp at hm
    · intro om hom
      rw [h2] at hom
      simp at hom
    · intro m hm
      simp at hm
  · have htrue : (setMaster w selfId nm).1 = true := by
      unfold setMaster
      rw [if_neg hfail]
      rcases nm with _ | m
      · rcases h : w.masterOf selfId with _ | om
        · exact absurd ⟨rfl, h⟩ hfail
        · simp [h]
      · rcases h : w.masterOf selfId with _ | om <;> simp [h]
    refine ⟨by rw [htrue]; exact iff_of_false (by simp) hfail, ?_, ?_, ?_, ?_, ?_⟩
    · intro h1 h2
      exact absurd ⟨h1, h2⟩ hfail
    · intro _
      unfold setMaster
      rw [if_neg hfail]
      rcases nm with _ | m
      · rcases h : w.masterOf selfId with _ | om
        · exact absurd ⟨rfl, h⟩ hfail
        · simp [h, Function.update_same]
      · rcases h : w.masterOf selfId with _ | om <;>
          simp [h, Function.update_same]
    · intro m hm hne
      subst hm
      unfold setMaster
      rw [if_neg hfail]
      rcases h : w.masterOf selfId with _ | om
      · simp [h, Function.update_same]
      · have homm : om ≠ m := fun he => hne (he ▸ h)
        simp [h, Function.update_same, Function.update_noteq homm,
          Function.update_noteq (Ne.symm homm)]
    · intro om hom hne
      unfold setMaster
      rw [if_neg hfail]
      rcases nm with _ | m
      · simp [hom, Function.update_same]
      · have hmo : m ≠ om := fun he => hne (by rw [he])
        simp [hom, Function.update_same, Function.update_noteq hmo,
          Function.update_noteq (Ne.symm hmo)]
    · intro m hm hom
      subst hm
      unfold setMaster
      rw [if_neg hfail]
      simp [hom, Function.update_same]

/-- C7 witness: a summon with master `2` reassigned to master `3` succeeds,
joins the new summon list and leaves the old one; reassigning to the same
master keeps the list membership; clearing the master of a masterless
creature fails and changes nothing. -/
theorem setMaster_contract_witness :
    (setMaster ⟨fun i => if i = 1 then some 2 else none,
        fun i => if i = 2 then [1] else []⟩ 1 (some 3)).1 = true ∧
    (setMaster ⟨fun i => if i = 1 then some 2 else none,
        fun i => if i = 2 then [1] else []⟩ 1 (some 3)).2.masterOf 1 = some 3 ∧
    1 ∈ (setMaster ⟨fun i => if i = 1 then some 2 else none,
        fun i => if i = 2 then [1] else []⟩ 1 (some 3)).2.summonsOf 3 ∧
    (setMaster ⟨fun i => if i = 1 then some 2 else none,
        fun i => if i = 2 then [1] else []⟩ 1 (some 3)).2.summonsOf 2 =
      ([1].erase 1) ∧
    (setMaster ⟨fun i => if i = 1 then some 2 else none,
        fun i => if i = 2 then [1] else []⟩ 1 (some 2)).2.summonsOf 2 =
      (([1] ++ [1]).erase 1) ∧
    (setMaster ⟨fun _ => none, fun _ => []⟩ 5 none).1 = false := by
  refine ⟨?_, ?_, ?_, ?_, ?_, ?_⟩
  · have h := (setMaster_contract ⟨fun i => if i = 1 then some 2 else none,
      fun i => if i = 2 then [1] else []⟩ 1 (some 3)).1
    rcases hres : (setMaster ⟨fun i => if i = 1 then some 2 else none,
      fun i => if i = 2 then [1] else []⟩ 1 (some 3)).1 with _ | _
    · exact absurd (h.mp hres).1 (by decide)
    · rfl
  · exact (setMaster_contract ⟨fun i => if i = 1 then some 2 else none,
      fun i => if i = 2 then [1] else []⟩ 1 (some 3)).2.2.1 (by
        have h := (setMaster_contract ⟨fun i => if i = 1 then some 2 else none,
          fun i => if i = 2 then [1] else []⟩ 1 (some 3)).1
        rcases hres : (setMaster ⟨fun i => if i = 1 then some 2 else none,
          fun i => if i = 2 then [1] else []⟩ 1 (some 3)).1 with _ | _
        · exact absurd (h.mp hres).1 (by decide)
        · rfl)
  · exact (setMaster_contract ⟨fun i => if i = 1 then some 2 else none,
      fun i => if i = 2 then [1] else []⟩ 1 (some 3)).2.2.2.1 3 rfl (by decide)
  · exact (setMaster_contract ⟨fun i => if i = 1 then some 2 else none,
      fun i => if i = 2 then [1] else []⟩ 1 (some 3)).2.2.2.2.1 2 (by decide)
      (by decide)
  · exact (setMaster_contract ⟨fun i => if i = 1 then some 2 else none,
      fun i => if i = 2 then [1] else []⟩ 1 (some 2)).2.2.2.2.2 2 rfl (by decide)
  · exact (setMaster_contract ⟨fun _ => none, fun _ => []⟩ 5 none).1.mpr
      ⟨rfl, rfl⟩

/-- The most-damage component of one `onDeath` scan step, written as an
explicit case split. -/
theorem onDeathStep_fst (ratioBase : DamageMap) (resolves : Nat → Bool)
    (selfId : Nat) (redirect : Nat → Nat) (lostExp : Nat)
    (timeNow inFightTicks : Int) (acc : (Option Nat × Nat) × List (Nat × Nat))
    (e : Nat × CountBlock) :
    (onDeathStep ratioBase resolves selfId redirect lostExp timeNow inFightTicks
        acc e).1 =
      if resolves e.1 then
        if e.2.total > acc.1.2 ∧ timeNow - e.2.ticks ≤ inFightTicks then
          (some e.1, e.2.total)
        else acc.1
      else acc.1 := by
  unfold onDeathStep
  split_ifs <;> rfl

/-- The most-damage accumulator of the `onDeath` scan only depends on the
ledger entries inside the combat-lock window: folding over a list or over
its window-filtered sublist gives the same first component, whatever ledger
the experience shares are computed from. -/
theorem onDeathFold_fst_filter (ratioA ratioB : DamageMap)
    (resolves : Nat → Bool) (selfId : Nat) (redirect : Nat → Nat)
    (lostExp : Nat) (timeNow inFightTicks : Int) (l : DamageMap) :
    ∀ acc acc2 : (Option Nat × Nat) × List (Nat × Nat), acc.1 = acc2.1 →
      (l.foldl (onDeathStep ratioA resolves selfId redirect lostExp timeNow
        inFightTicks) acc).1 =
      ((l.filter (fun e => decide (timeNow - e.2.ticks ≤ inFightTicks))).foldl
        (onDeathStep ratioB resolves selfId redirect lostExp timeNow
          inFightTicks) acc2).1 := by
  induction l with
  | nil =>
    intro acc acc2 h
    simpa using h
  | cons e l ih =>
    intro acc acc2 h
    by_cases hw : timeNow - e.2.ticks ≤ inFightTicks
    · rw [show (e :: l).filter (fun e => decide (timeNow - e.2.ticks ≤ inFightTicks)) =
          e :: l.filter (fun e => decide (timeNow - e.2.ticks ≤ inFightTicks)) by
            simp [List.filter_cons, hw]; omega,
        List.foldl_cons, List.foldl_cons]
      exact ih _ _ (by rw [onDeathStep_fst, onDeathStep_fst, h])
    · rw [show (e :: l).filter (fun e => decide (timeNow - e.2.ticks ≤ inFightTicks)) =
          l.filter (fun e => decide (timeNow - e.2.ticks ≤ inFightTicks)) by
            simp [List.filter_cons, hw]; omega,
        List.foldl_cons]
      refine ih _ _ ?_
      rw [onDeathStep_fst, h]
      split_ifs with h1 h2
      · exact absurd h2.2 hw
      · rfl
      · rfl

/-- The damage-ratio computation reads only ids and totals, never the
timestamps. -/
theorem damageRatioOf_reassign (dm : DamageMap) (f : Nat → CountBlock → Int)
    (a : Nat) : damageRatioOf (reassignTicks dm f) a = damageRatioOf dm a := by
  simp [damageRatioOf, reassignTicks, List.foldl_map]

/-- The gained-experience computation reads only ids and totals, never the
timestamps. -/
theorem getGainedExperience_reassign (dm : DamageMap)
    (f : Nat → CountBlock → Int) (a : Nat) (lostExp : Nat) :
    getGainedExperience (reassignTicks dm f) a lostExp =
      getGainedExperience dm a lostExp := by
  unfold getGainedExperience
  rw [damageRatioOf_reassign]

/-- The experience-share accumulator of the `onDeath` scan is unchanged under
arbitrary reassignment of every ledger timestamp. -/
theorem onDeathFold_snd_reassign (dm : DamageMap) (f : Nat → CountBlock → Int)
    (resolves : Nat → Bool) (selfId : Nat) (redirect : Nat → Nat)
    (lostExp : Nat) (timeNow inFightTicks : Int) (l : DamageMap) :
    ∀ acc acc2 : (Option Nat × Nat) × List (Nat × Nat), acc.2 = acc2.2 →
      ((reassignTicks l f).foldl (onDeathStep (reassignTicks dm f) resolves
        selfId redirect lostExp timeNow inFightTicks) acc).2 =
      (l.foldl (onDeathStep dm resolves selfId redirect lostExp timeNow
        inFightTicks) acc2).2 := by
  induction l with
  | nil =>
    intro acc acc2 h
    simpa [reassignTicks] using h
  | cons e l ih =>
    intro acc acc2 h
    rw [show reassignTicks (e :: l) f =
        (e.1, ⟨e.2.total, f e.1 e.2⟩) :: reassignTicks l f from rfl,
      List.foldl_cons, List.foldl_cons]
    refine ih _ _ ?_
    unfold onDeathStep
    by_cases hr : resolves e.1
    · simp only [hr, if_true]
      by_cases hs : e.1 ≠ selfId
      · simp [hs, h, getGainedExperience_reassign]
      · simp [hs, h]
    · simp [hr, h]

/-- C5 counterexample: a ledger holding a stale entry (attacker `1`, last hit
at time `0`, far outside a `60000`-tick window ending at time `100000`) and a
fresh entry (attacker `2`) gives attacker `2` the damage ratio `1/2`, whereas
the window-filtered ledger gives `1`: `getDamageRatio` uses the stale entry
instead of filtering it. -/
theorem damageRatio_stale_counterexample :
    ([((1 : Nat), (⟨50, 0⟩ : CountBlock)), (2, ⟨50, 100000⟩)] : DamageMap).filter
        (fun e => decide ((100000 : Int) - e.2.ticks ≤ 60000)) =
      ([(2, ⟨50, 100000⟩)] : DamageMap) ∧
    damageRatioOf [((1 : Nat), (⟨50, 0⟩ : CountBlock)), (2, ⟨50, 100000⟩)] 2 = 1 / 2 ∧
    damageRatioOf [((2 : Nat), (⟨50, 100000⟩ : CountBlock))] 2 = 1 ∧
    (1 / 2 : Rat) ≠ 1 := by
  refine ⟨by decide, ?_, ?_, by norm_num⟩ <;>
    norm_num [damageRatioOf, List.foldl_cons, List.foldl_nil]

/-- C5 amended: `getKillers` and the most-damage selection of `onDeath`
consider only ledger entries whose last-hit timestamp lies within the
combat-lock window, but `getDamageRatio` — and with it the experience-share
map built by `onDeath` — does not filter by the window: both are invariant
under arbitrary reassignment of every ledger timestamp, so stale entries
keep contributing to them. -/
theorem damageLedger_consumers_amended
    (dm : DamageMap) (resolves : Nat → Bool) (selfId : Nat)
    (redirect : Nat → Nat) (lostExp : Nat) (timeNow inFightTicks : Int)
    (f : Nat → CountBlock → Int) :
    (∀ id ∈ getKillers dm resolves selfId timeNow inFightTicks,
      ∃ cb, (id, cb) ∈ dm ∧ timeNow - cb.ticks ≤ inFightTicks) ∧
    ((onDeathScan dm resolves selfId redirect lostExp timeNow inFightTicks).1 =
      (onDeathScan (dm.filter (fun e => decide (timeNow - e.2.ticks ≤ inFightTicks)))
        resolves selfId redirect lostExp timeNow inFightTicks).1) ∧
    (∀ a, damageRatioOf (reassignTicks dm f) a = damageRatioOf dm a) ∧
    ((onDeathScan (reassignTicks dm f) resolves selfId redirect lostExp timeNow
        inFightTicks).2 =
      (onDeathScan dm resolves selfId redirect lostExp timeNow inFightTicks).2) := by
  refine ⟨?_, ?_, fun a => damageRatioOf_reassign dm f a, ?_⟩
  · intro id hid
    simp only [getKillers, List.mem_map, List.mem_filter] at hid
    obtain ⟨⟨eid, cb⟩, ⟨hmem, hp⟩, rfl⟩ := hid
    simp only [Bool.and_eq_true, decide_eq_true_eq] at hp
    exact ⟨cb, hmem, hp.2⟩
  · exact onDeathFold_fst_filter dm
      (dm.filter (fun e => decide (timeNow - e.2.ticks ≤ inFightTicks)))
      resolves selfId redirect lostExp timeNow inFightTicks dm _ _ rfl
  · exact onDeathFold_snd_reassign dm f resolves selfId redirect lostExp
      timeNow inFightTicks dm _ _ rfl

/-- C5 amended witness: on a concrete two-entry ledger with one stale entry,
a reported killer is backed by an in-window entry, and the ratio is
insensitive to pushing every timestamp to `5`. -/
theorem damageLedger_consumers_amended_witness :
    (∃ cb, ((1 : Nat), cb) ∈
        ([((1 : Nat), (⟨50, 90000⟩ : CountBlock)), (3, ⟨70, 0⟩)] : DamageMap) ∧
      (100000 : Int) - cb.ticks ≤ 60000) ∧
    damageRatioOf (reassignTicks
        ([((1 : Nat), (⟨50, 90000⟩ : CountBlock)), (3, ⟨70, 0⟩)] : DamageMap)
        (fun _ _ => 5)) 1 =
      damageRatioOf
        ([((1 : Nat), (⟨50, 90000⟩ : CountBlock)), (3, ⟨70, 0⟩)] : DamageMap) 1 :=
  ⟨(damageLedger_consumers_amended
      [((1 : Nat), (⟨50, 90000⟩ : CountBlock)), (3, ⟨70, 0⟩)]
      (fun _ => true) 9 (fun i => i) 1000 100000 60000 (fun _ _ => 5)).1
      1 (by decide),
    (damageLedger_consumers_amended
      [((1 : Nat), (⟨50, 90000⟩ : CountBlock)), (3, ⟨70, 0⟩)]
      (fun _ => true) 9 (fun i => i) 1000 100000 60000 (fun _ _ => 5)).2.2.1 1⟩

set_option maxRecDepth 40000 in
/-- C2: after one south-east step from a freshly rebuilt cache, the
incremental shift maintenance of `onCreatureMove` disagrees with a full
`updateMapCache` rebuild at the final position — at the top-left cell the
shift path keeps the tile one column to the west (the top row is excluded
from the horizontal shift because `starty` is computed from the absolute
`getDistanceY`, although for a southward step the freshly refilled bottom
row, not the top row, should have been excluded). -/
theorem cacheShift_southEastMove_differs_from_rebuild :
    seIncremental 0 0 = true ∧ seRebuilt 0 0 = false ∧ seIncremental ≠ seRebuilt := by
  refine ⟨by decide, by decide, ?_⟩
  intro hEq
  have h1 : seIncremental 0 0 = true := by decide
  have h2 : seRebuilt 0 0 = false := by decide
  rw [hEq, h2] at h1
  exact Bool.noConfusion h1

end BlackTek
